import Mathlib

/-!
Shallow embedding of the Monkey lexical scanner (package `lexer`, final
ASCII revision) and its token model (package `token`).

Source strings are modelled as lists of byte values (`List Nat`, each entry
the value of one byte).  Go string indexing `s[i]` becomes `List.getD`,
slicing `s[i:]` becomes `List.drop`, `strings.HasPrefix` becomes
`List.isPrefixOf`, and the scanning loops of `consumeWhitespace`, `readInt`
and `readIdent` (each a `for` loop consuming bytes while a byte predicate
holds) are rendered with `List.takeWhile` over the remaining input, with the
position advanced by the length of the consumed run.  The panic on calling
`NextToken` after EOF is modelled as a dedicated `NextResult.panic` outcome,
distinct from the ordinary `(token.Token, error)` return values.
-/

namespace token

/-- TokenType is the type of a token (a string constant in the source). -/
abbrev TokenType := String

/-- Token represents a token: its type together with its literal value
(the exact bytes of source text that produced it). -/
structure Token where
  type : TokenType
  literal : List Nat
deriving DecidableEq

def Illegal : TokenType := "ILLEGAL"

def EOF : TokenType := "EOF"

def Ident : TokenType := "IDENT"

def Int : TokenType := "INT"

def Assign : TokenType := "ASSIGN"

def Plus : TokenType := "PLUS"

def Minus : TokenType := "MINUS"

def Slash : TokenType := "SLASH"

def Asterisk : TokenType := "ASTERISK"

def Bang : TokenType := "BANG"

def Less : TokenType := "LESS"

def Greater : TokenType := "GREATER"

def Equal : TokenType := "EQUAL"

def NotEqual : TokenType := "NOT_EQUAL"

def Comma : TokenType := "COMMA"

def Semicolon : TokenType := "SEMICOLON"

def LParen : TokenType := "L_PAREN"

def RParen : TokenType := "R_PAREN"

def LBrace : TokenType := "L_BRACE"

def RBrace : TokenType := "R_BRACE"

def Function : TokenType := "FUNCTION"

def Return : TokenType := "RETURN"

def Let : TokenType := "LET"

def If : TokenType := "IF"

def Else : TokenType := "ELSE"

def True : TokenType := "TRUE"

def False : TokenType := "FALSE"

/-- keywordTokenTypesByIdent maps each reserved word (as its byte sequence)
to the keyword token type.  The entries spell, in order: fn, return, let,
if, else, true, false. -/
def keywordTokenTypesByIdent : List (List Nat × TokenType) :=
  [([102, 110], Function),
   ([114, 101, 116, 117, 114, 110], Return),
   ([108, 101, 116], Let),
   ([105, 102], If),
   ([101, 108, 115, 101], Else),
   ([116, 114, 117, 101], True),
   ([102, 97, 108, 115, 101], False)]

/-- IdentTokenType returns the token type of the given identifier.
Identifiers can either be regular identifiers or they can be keywords. -/
def IdentTokenType (ident : List Nat) : TokenType :=
  match keywordTokenTypesByIdent.lookup ident with
  | some tokenType => tokenType
  | none => Ident

end token

namespace lexer

/-- InvalidASCIIError is returned when the lexer encounters a byte in source
code which is not valid ASCII.  It carries the offending byte value and its
zero-based byte position in the input. -/
structure InvalidASCIIError where
  byte : Nat
  position : Nat
deriving DecidableEq

/-- Lexer parses Monkey source code which must be valid ASCII.  It holds the
immutable source bytes, the flag recording whether EOF has been returned,
and the current byte position. -/
structure Lexer where
  src : List Nat
  eofReturned : Bool
  pos : Nat
deriving DecidableEq

/-- New initialises a new Lexer with the given source code. -/
def New (src : List Nat) : Lexer :=
  Lexer.mk src false 0

/-- isWhitespace reports whether the byte is one of the six ASCII whitespace
characters: tab (9), newline (10), vertical tab (11), form feed (12),
carriage return (13), space (32). -/
def isWhitespace (char : Nat) : Bool :=
  char = 9 || char = 10 || char = 11 || char = 12 || char = 13 || char = 32

/-- isNumber reports whether the byte is an ASCII digit 0 to 9. -/
def isNumber (char : Nat) : Bool :=
  48 ≤ char && char ≤ 57

/-- isValidIdentChar reports whether the byte is an ASCII lowercase letter,
uppercase letter, digit, or underscore (95). -/
def isValidIdentChar (char : Nat) : Bool :=
  (97 ≤ char && char ≤ 122) || (65 ≤ char && char ≤ 90) ||
    (48 ≤ char && char ≤ 57) || char = 95

/-- consumeWhitespace consumes the whitespace at the current position in the
source: the position advances past the maximal run of whitespace bytes. -/
def consumeWhitespace (l : Lexer) : Lexer :=
  Lexer.mk l.src l.eofReturned
    (l.pos + ((l.src.drop l.pos).takeWhile isWhitespace).length)

/-- readInt reads the integer at the current position in the source and
returns the empty list if there is not one, advancing the position past the
digits read. -/
def readInt (l : Lexer) : List Nat × Lexer :=
  let digits := (l.src.drop l.pos).takeWhile isNumber
  (digits, Lexer.mk l.src l.eofReturned (l.pos + digits.length))

/-- readIdent reads the identifier at the current position in the source and
returns the empty list if there is not one, advancing the position past the
identifier characters read. -/
def readIdent (l : Lexer) : List Nat × Lexer :=
  let ident := (l.src.drop l.pos).takeWhile isValidIdentChar
  (ident, Lexer.mk l.src l.eofReturned (l.pos + ident.length))

/-- newToken builds a token from a token type and a literal. -/
def newToken (tokenType : token.TokenType) (literal : List Nat) : token.Token :=
  token.Token.mk tokenType literal

/-- NextResult is the outcome of one NextToken call: a panic (calling after
EOF was returned), an error together with the lexer state after the call, or
a token together with the lexer state after the call. -/
inductive NextResult where
  | panic : NextResult
  | error : InvalidASCIIError → Lexer → NextResult
  | ok : token.Token → Lexer → NextResult
deriving DecidableEq

/-- NextToken returns the next token from the source code.  Calling
repeatedly will return all of the tokens, ending with a token of type EOF.
Calling after this panics.  An error is returned if the source code is not
valid ASCII (a byte greater than 127 at the current position). -/
def NextToken (l0 : Lexer) : NextResult :=
  if l0.eofReturned then
    NextResult.panic
  else
    let l := consumeWhitespace l0
    if l.pos = l.src.length then
      NextResult.ok (newToken token.EOF []) (Lexer.mk l.src true l.pos)
    else
      let char := l.src.getD l.pos 0
      if char > 127 then
        NextResult.error (InvalidASCIIError.mk char l.pos) l
      else if char = 61 then
        if [61, 61].isPrefixOf (l.src.drop l.pos) then
          NextResult.ok (newToken token.Equal [61, 61])
            (Lexer.mk l.src l.eofReturned (l.pos + 2))
        else
          NextResult.ok (newToken token.Assign [char])
            (Lexer.mk l.src l.eofReturned (l.pos + 1))
      else if char = 43 then
        NextResult.ok (newToken token.Plus [char])
          (Lexer.mk l.src l.eofReturned (l.pos + 1))
      else if char = 45 then
        NextResult.ok (newToken token.Minus [char])
          (Lexer.mk l.src l.eofReturned (l.pos + 1))
      else if char = 47 then
        NextResult.ok (newToken token.Slash [char])
          (Lexer.mk l.src l.eofReturned (l.pos + 1))
      else if char = 42 then
        NextResult.ok (newToken token.Asterisk [char])
          (Lexer.mk l.src l.eofReturned (l.pos + 1))
      else if char = 33 then
        if [33, 61].isPrefixOf (l.src.drop l.pos) then
          NextResult.ok (newToken token.NotEqual [33, 61])
            (Lexer.mk l.src l.eofReturned (l.pos + 2))
        else
          NextResult.ok (newToken token.Bang [char])
            (Lexer.mk l.src l.eofReturned (l.pos + 1))
      else if char = 60 then
        NextResult.ok (newToken token.Less [char])
          (Lexer.mk l.src l.eofReturned (l.pos + 1))
      else if char = 62 then
        NextResult.ok (newToken token.Greater [char])
          (Lexer.mk l.src l.eofReturned (l.pos + 1))
      else if char = 44 then
        NextResult.ok (newToken token.Comma [char])
          (Lexer.mk l.src l.eofReturned (l.pos + 1))
      else if char = 59 then
        NextResult.ok (newToken token.Semicolon [char])
          (Lexer.mk l.src l.eofReturned (l.pos + 1))
      else if char = 40 then
        NextResult.ok (newToken token.LParen [char])
          (Lexer.mk l.src l.eofReturned (l.pos + 1))
      else if char = 41 then
        NextResult.ok (newToken token.RParen [char])
          (Lexer.mk l.src l.eofReturned (l.pos + 1))
      else if char = 123 then
        NextResult.ok (newToken token.LBrace [char])
          (Lexer.mk l.src l.eofReturned (l.pos + 1))
      else if char = 125 then
        NextResult.ok (newToken token.RBrace [char])
          (Lexer.mk l.src l.eofReturned (l.pos + 1))
      else
        let ri := readInt l
        if ri.1 ≠ [] then
          NextResult.ok (newToken token.Int ri.1) ri.2
        else
          let rid := readIdent ri.2
          if rid.1 ≠ [] then
            NextResult.ok (newToken (token.IdentTokenType rid.1) rid.1) rid.2
          else
            NextResult.ok (newToken token.Illegal [char])
              (Lexer.mk rid.2.src rid.2.eofReturned (rid.2.pos + 1))

/-- firstToken returns the first token produced by a fresh scan of the given
source bytes, or none when the first call panics or reports an error. -/
def firstToken (src : List Nat) : Option token.Token :=
  match NextToken (New src) with
  | NextResult.ok t _ => some t
  | _ => none

end lexer

section SanityChecks

example : lexer.NextToken (lexer.New []) =
    lexer.NextResult.ok (token.Token.mk token.EOF []) (lexer.Lexer.mk [] true 0) := by
  decide

example : lexer.NextToken (lexer.New [61, 61]) =
    lexer.NextResult.ok (token.Token.mk token.Equal [61, 61]) (lexer.Lexer.mk [61, 61] false 2) := by
  decide

example : lexer.NextToken (lexer.New [61, 43]) =
    lexer.NextResult.ok (token.Token.mk token.Assign [61]) (lexer.Lexer.mk [61, 43] false 1) := by
  decide

example : lexer.NextToken (lexer.New [32, 102, 110, 32]) =
    lexer.NextResult.ok (token.Token.mk token.Function [102, 110])
      (lexer.Lexer.mk [32, 102, 110, 32] false 3) := by
  decide

example : lexer.NextToken (lexer.New [49, 50, 51]) =
    lexer.NextResult.ok (token.Token.mk token.Int [49, 50, 51])
      (lexer.Lexer.mk [49, 50, 51] false 3) := by
  decide

example : lexer.NextToken (lexer.Lexer.mk [61, 255] false 1) =
    lexer.NextResult.error (lexer.InvalidASCIIError.mk 255 1)
      (lexer.Lexer.mk [61, 255] false 1) := by
  decide

example : lexer.NextToken (lexer.Lexer.mk [] true 0) = lexer.NextResult.panic := by
  decide

end SanityChecks

namespace lexer

/-- Basic fact: a takeWhile run is never longer than the list. -/
theorem takeWhile_length_le (p : Nat → Bool) (xs : List Nat) :
    (xs.takeWhile p).length ≤ xs.length := by
  induction xs with
  | nil => simp
  | cons a xs ih =>
    rw [List.takeWhile_cons]
    split
    · simpa using ih
    · simp

/-- consumeWhitespace leaves the source unchanged. -/
theorem consumeWhitespace_src (l : Lexer) : (consumeWhitespace l).src = l.src := rfl

/-- consumeWhitespace leaves the eofReturned flag unchanged. -/
theorem consumeWhitespace_eofReturned (l : Lexer) :
    (consumeWhitespace l).eofReturned = l.eofReturned := rfl

/-- consumeWhitespace never moves the position backwards. -/
theorem consumeWhitespace_pos_le (l : Lexer) : l.pos ≤ (consumeWhitespace l).pos :=
  Nat.le_add_right _ _

/-- consumeWhitespace keeps the position within the input bounds. -/
theorem consumeWhitespace_pos_le_length (l : Lexer) (h : l.pos ≤ l.src.length) :
    (consumeWhitespace l).pos ≤ l.src.length := by
  have hlen : ((l.src.drop l.pos).takeWhile isWhitespace).length ≤ l.src.length - l.pos := by
    have := takeWhile_length_le isWhitespace (l.src.drop l.pos)
    simpa using this
  show l.pos + _ ≤ l.src.length
  omega

/-- A byte that is not whitespace at the current position means
consumeWhitespace does nothing. -/
theorem consumeWhitespace_eq_self (l : Lexer)
    (hw : isWhitespace (l.src.getD l.pos 0) = false) : consumeWhitespace l = l := by
  obtain ⟨src, eof, pos⟩ := l
  simp only [consumeWhitespace]
  by_cases hlt : pos < src.length
  · rw [List.drop_eq_getElem_cons hlt, List.takeWhile_cons]
    simp only at hw
    rw [List.getD_eq_getElem _ _ hlt] at hw
    simp [hw]
  · rw [List.drop_eq_nil_of_le (by omega)]
    simp

/-- Bytes above 127 are not whitespace. -/
theorem not_whitespace_of_gt_127 (b : Nat) (h : 127 < b) : isWhitespace b = false := by
  simp only [isWhitespace]
  simp only [decide_eq_true_eq, Bool.or_eq_false_iff, decide_eq_false_iff_not]
  omega

/-- Characterisation of a two-byte lookahead at position p: the pair a, b is
a prefix of the input dropped at p (whose byte at p is a) exactly when the
next byte exists and is b. -/
theorem isPrefixOf_pair (a b : Nat) (xs : List Nat) (p : Nat) (hp : p < xs.length)
    (hhead : xs.getD p 0 = a) :
    [a, b].isPrefixOf (xs.drop p) = true ↔ (p + 1 < xs.length ∧ xs.getD (p + 1) 0 = b) := by
  rw [List.drop_eq_getElem_cons hp]
  rw [List.getD_eq_getElem _ _ hp] at hhead
  by_cases hp1 : p + 1 < xs.length
  · rw [List.drop_eq_getElem_cons hp1]
    rw [List.isPrefixOf]
    simp only [List.isPrefixOf, Bool.and_eq_true, beq_iff_eq, hhead,
      List.getD_eq_getElem _ _ hp1]
    simp [hp1, eq_comm]
  · rw [List.drop_eq_nil_of_le (by omega)]
    simp [List.isPrefixOf, hp1]

end lexer

namespace token

/-- Unfolding of IdentTokenType as a chain of comparisons against the seven
reserved words (fn, return, let, if, else, true, false). -/
theorem IdentTokenType_eq_ite (s : List Nat) :
    IdentTokenType s =
      if s = [102, 110] then Function
      else if s = [114, 101, 116, 117, 114, 110] then Return
      else if s = [108, 101, 116] then Let
      else if s = [105, 102] then If
      else if s = [101, 108, 115, 101] then Else
      else if s = [116, 114, 117, 101] then True
      else if s = [102, 97, 108, 115, 101] then False
      else Ident := by
  by_cases h1 : s = [102, 110]
  · subst h1; decide
  rw [if_neg h1]
  by_cases h2 : s = [114, 101, 116, 117, 114, 110]
  · subst h2; decide
  rw [if_neg h2]
  by_cases h3 : s = [108, 101, 116]
  · subst h3; decide
  rw [if_neg h3]
  by_cases h4 : s = [105, 102]
  · subst h4; decide
  rw [if_neg h4]
  by_cases h5 : s = [101, 108, 115, 101]
  · subst h5; decide
  rw [if_neg h5]
  by_cases h6 : s = [116, 114, 117, 101]
  · subst h6; decide
  rw [if_neg h6]
  by_cases h7 : s = [102, 97, 108, 115, 101]
  · subst h7; decide
  rw [if_neg h7]
  unfold IdentTokenType keywordTokenTypesByIdent
  have e1 : (s == [102, 110]) = Bool.false := by simpa using h1
  have e2 : (s == [114, 101, 116, 117, 114, 110]) = Bool.false := by simpa using h2
  have e3 : (s == [108, 101, 116]) = Bool.false := by simpa using h3
  have e4 : (s == [105, 102]) = Bool.false := by simpa using h4
  have e5 : (s == [101, 108, 115, 101]) = Bool.false := by simpa using h5
  have e6 : (s == [116, 114, 117, 101]) = Bool.false := by simpa using h6
  have e7 : (s == [102, 97, 108, 115, 101]) = Bool.false := by simpa using h7
  simp [List.lookup, e1, e2, e3, e4, e5, e6, e7]

/-- Identifier classification never produces the EOF token type. -/
theorem IdentTokenType_ne_eof (s : List Nat) : IdentTokenType s ≠ EOF := by
  rw [IdentTokenType_eq_ite]
  split_ifs <;> decide

end token

namespace lexer

/-- Position field of an explicitly built lexer state. -/
theorem pos_mk (s : List Nat) (e : Bool) (p : Nat) : (Lexer.mk s e p).pos = p := rfl

/-- A byte strictly above 127 read via getD must be in bounds, since the
out-of-bounds default is 0. -/
theorem lt_length_of_getD_gt_127 (xs : List Nat) (n : Nat) (h : 127 < xs.getD n 0) :
    n < xs.length := by
  by_contra hge
  rw [List.getD_eq_default xs 0 (by omega)] at h
  omega

/-- Inversion for the error outcome of NextToken: an invalid-ASCII error is
reported exactly from the branch where, after whitespace skipping, the byte
at the current position exceeds 127; the error carries that byte and that
position, and the state returned is the whitespace-consumed state. -/
theorem nextToken_error_inv (l : Lexer) (e : InvalidASCIIError) (l₂ : Lexer)
    (h : NextToken l = NextResult.error e l₂) :
    l.eofReturned = false ∧ (consumeWhitespace l).pos < l.src.length ∧
    127 < l.src.getD (consumeWhitespace l).pos 0 ∧
    e = InvalidASCIIError.mk (l.src.getD (consumeWhitespace l).pos 0)
      (consumeWhitespace l).pos ∧
    l₂ = consumeWhitespace l := by
  unfold NextToken at h
  by_cases h1 : l.eofReturned = true
  · rw [if_pos h1] at h; exact absurd h (by simp)
  rw [if_neg h1] at h
  have h1' : l.eofReturned = false := by simpa using h1
  simp only [consumeWhitespace_src, consumeWhitespace_eofReturned, gt_iff_lt, h1',
    readInt, readIdent] at h
  by_cases h2 : (consumeWhitespace l).pos = l.src.length
  · rw [if_pos h2] at h; exact absurd h (by simp)
  rw [if_neg h2] at h
  by_cases h3 : 127 < l.src.getD (consumeWhitespace l).pos 0
  · rw [if_pos h3] at h
    have hb : (consumeWhitespace l).pos < l.src.length :=
      lt_length_of_getD_gt_127 _ _ h3
    injection h with he hl
    exact ⟨h1', hb, h3, he.symm, hl.symm⟩
  rw [if_neg h3] at h
  by_cases c1 : l.src.getD (consumeWhitespace l).pos 0 = 61
  · rw [if_pos c1] at h
    by_cases d1 : [61, 61].isPrefixOf (l.src.drop (consumeWhitespace l).pos) = true
    · rw [if_pos d1] at h; exact absurd h (by simp)
    · rw [if_neg d1] at h; exact absurd h (by simp)
  rw [if_neg c1] at h
  by_cases c2 : l.src.getD (consumeWhitespace l).pos 0 = 43
  · rw [if_pos c2] at h; exact absurd h (by simp)
  rw [if_neg c2] at h
  by_cases c3 : l.src.getD (consumeWhitespace l).pos 0 = 45
  · rw [if_pos c3] at h; exact absurd h (by simp)
  rw [if_neg c3] at h
  by_cases c4 : l.src.getD (consumeWhitespace l).pos 0 = 47
  · rw [if_pos c4] at h; exact absurd h (by simp)
  rw [if_neg c4] at h
  by_cases c5 : l.src.getD (consumeWhitespace l).pos 0 = 42
  · rw [if_pos c5] at h; exact absurd h (by simp)
  rw [if_neg c5] at h
  by_cases c6 : l.src.getD (consumeWhitespace l).pos 0 = 33
  · rw [if_pos c6] at h
    by_cases d2 : [33, 61].isPrefixOf (l.src.drop (consumeWhitespace l).pos) = true
    · rw [if_pos d2] at h; exact absurd h (by simp)
    · rw [if_neg d2] at h; exact absurd h (by simp)
  rw [if_neg c6] at h
  by_cases c7 : l.src.getD (consumeWhitespace l).pos 0 = 60
  · rw [if_pos c7] at h; exact absurd h (by simp)
  rw [if_neg c7] at h
  by_cases c8 : l.src.getD (consumeWhitespace l).pos 0 = 62
  · rw [if_pos c8] at h; exact absurd h (by simp)
  rw [if_neg c8] at h
  by_cases c9 : l.src.getD (consumeWhitespace l).pos 0 = 44
  · rw [if_pos c9] at h; exact absurd h (by simp)
  rw [if_neg c9] at h
  by_cases c10 : l.src.getD (consumeWhitespace l).pos 0 = 59
  · rw [if_pos c10] at h; exact absurd h (by simp)
  rw [if_neg c10] at h
  by_cases c11 : l.src.getD (consumeWhitespace l).pos 0 = 40
  · rw [if_pos c11] at h; exact absurd h (by simp)
  rw [if_neg c11] at h
  by_cases c12 : l.src.getD (consumeWhitespace l).pos 0 = 41
  · rw [if_pos c12] at h; exact absurd h (by simp)
  rw [if_neg c12] at h
  by_cases c13 : l.src.getD (consumeWhitespace l).pos 0 = 123
  · rw [if_pos c13] at h; exact absurd h (by simp)
  rw [if_neg c13] at h
  by_cases c14 : l.src.getD (consumeWhitespace l).pos 0 = 125
  · rw [if_pos c14] at h; exact absurd h (by simp)
  rw [if_neg c14] at h
  split at h
  · exact absurd h (by simp)
  split at h
  · exact absurd h (by simp)
  exact absurd h (by simp)

end lexer

namespace lexer

/-- Inversion for the ok outcome of NextToken: either the EOF branch fired
(position at end of input after whitespace skipping, EOF token with empty
literal, terminated flag set), or a real token was produced, whose type is
never EOF, leaving the source unchanged, the terminated flag unset, the
position strictly advanced past the whitespace-skipped position, and (when
that position was in bounds) still within bounds. -/
theorem nextToken_ok_inv (l : Lexer) (t : token.Token) (l₂ : Lexer)
    (h : NextToken l = NextResult.ok t l₂) :
    l.eofReturned = false ∧
    (((consumeWhitespace l).pos = l.src.length ∧ t = newToken token.EOF [] ∧
       l₂ = Lexer.mk l.src true (consumeWhitespace l).pos) ∨
     ((consumeWhitespace l).pos ≠ l.src.length ∧ t.type ≠ token.EOF ∧
       l₂.src = l.src ∧ l₂.eofReturned = false ∧
       (consumeWhitespace l).pos < l₂.pos ∧
       ((consumeWhitespace l).pos < l.src.length → l₂.pos ≤ l.src.length))) := by
  unfold NextToken at h
  by_cases h1 : l.eofReturned = true
  · rw [if_pos h1] at h; exact absurd h (by simp)
  rw [if_neg h1] at h
  have h1' : l.eofReturned = false := by simpa using h1
  refine ⟨h1', ?_⟩
  simp only [consumeWhitespace_src, consumeWhitespace_eofReturned, gt_iff_lt, h1',
    readInt, readIdent] at h
  by_cases h2 : (consumeWhitespace l).pos = l.src.length
  · rw [if_pos h2] at h
    injection h with ht hl
    exact Or.inl ⟨h2, ht.symm, hl.symm⟩
  rw [if_neg h2] at h
  refine Or.inr ?_
  by_cases h3 : 127 < l.src.getD (consumeWhitespace l).pos 0
  · rw [if_pos h3] at h; exact absurd h (by simp)
  rw [if_neg h3] at h
  by_cases c1 : l.src.getD (consumeWhitespace l).pos 0 = 61
  · rw [if_pos c1] at h
    by_cases d1 : [61, 61].isPrefixOf (l.src.drop (consumeWhitespace l).pos) = true
    · rw [if_pos d1] at h
      injection h with ht hl
      subst ht hl
      have hlen : (2 : Nat) ≤ (l.src.drop (consumeWhitespace l).pos).length :=
        (List.isPrefixOf_iff_prefix.mp d1).length_le
      rw [List.length_drop] at hlen
      exact ⟨h2, by dsimp only [newToken]; decide, rfl, rfl, by simp only [pos_mk]; omega, fun _ => by simp only [pos_mk]; omega⟩
    · rw [if_neg d1] at h
      injection h with ht hl
      subst ht hl
      exact ⟨h2, by dsimp only [newToken]; decide, rfl, rfl, by simp only [pos_mk]; omega, fun hlt => by simp only [pos_mk]; omega⟩
  rw [if_neg c1] at h
  by_cases c2 : l.src.getD (consumeWhitespace l).pos 0 = 43
  · rw [if_pos c2] at h
    injection h with ht hl
    subst ht hl
    exact ⟨h2, by dsimp only [newToken]; decide, rfl, rfl, by simp only [pos_mk]; omega, fun hlt => by simp only [pos_mk]; omega⟩
  rw [if_neg c2] at h
  by_cases c3 : l.src.getD (consumeWhitespace l).pos 0 = 45
  · rw [if_pos c3] at h
    injection h with ht hl
    subst ht hl
    exact ⟨h2, by dsimp only [newToken]; decide, rfl, rfl, by simp only [pos_mk]; omega, fun hlt => by simp only [pos_mk]; omega⟩
  rw [if_neg c3] at h
  by_cases c4 : l.src.getD (consumeWhitespace l).pos 0 = 47
  · rw [if_pos c4] at h
    injection h with ht hl
    subst ht hl
    exact ⟨h2, by dsimp only [newToken]; decide, rfl, rfl, by simp only [pos_mk]; omega, fun hlt => by simp only [pos_mk]; omega⟩
  rw [if_neg c4] at h
  by_cases c5 : l.src.getD (consumeWhitespace l).pos 0 = 42
  · rw [if_pos c5] at h
    injection h with ht hl
    subst ht hl
    exact ⟨h2, by dsimp only [newToken]; decide, rfl, rfl, by simp only [pos_mk]; omega, fun hlt => by simp only [pos_mk]; omega⟩
  rw [if_neg c5] at h
  by_cases c6 : l.src.getD (consumeWhitespace l).pos 0 = 33
  · rw [if_pos c6] at h
    by_cases d2 : [33, 61].isPrefixOf (l.src.drop (consumeWhitespace l).pos) = true
    · rw [if_pos d2] at h
      injection h with ht hl
      subst ht hl
      have hlen : (2 : Nat) ≤ (l.src.drop (consumeWhitespace l).pos).length :=
        (List.isPrefixOf_iff_prefix.mp d2).length_le
      rw [List.length_drop] at hlen
      exact ⟨h2, by dsimp only [newToken]; decide, rfl, rfl, by simp only [pos_mk]; omega, fun _ => by simp only [pos_mk]; omega⟩
    · rw [if_neg d2] at h
      injection h with ht hl
      subst ht hl
      exact ⟨h2, by dsimp only [newToken]; decide, rfl, rfl, by simp only [pos_mk]; omega, fun hlt => by simp only [pos_mk]; omega⟩
  rw [if_neg c6] at h
  by_cases c7 : l.src.getD (consumeWhitespace l).pos 0 = 60
  · rw [if_pos c7] at h
    injection h with ht hl
    subst ht hl
    exact ⟨h2, by dsimp only [newToken]; decide, rfl, rfl, by simp only [pos_mk]; omega, fun hlt => by simp only [pos_mk]; omega⟩
  rw [if_neg c7] at h
  by_cases c8 : l.src.getD (consumeWhitespace l).pos 0 = 62
  · rw [if_pos c8] at h
    injection h with ht hl
    subst ht hl
    exact ⟨h2, by dsimp only [newToken]; decide, rfl, rfl, by simp only [pos_mk]; omega, fun hlt => by simp only [pos_mk]; omega⟩
  rw [if_neg c8] at h
  by_cases c9 : l.src.getD (consumeWhitespace l).pos 0 = 44
  · rw [if_pos c9] at h
    injection h with ht hl
    subst ht hl
    exact ⟨h2, by dsimp only [newToken]; decide, rfl, rfl, by simp only [pos_mk]; omega, fun hlt => by simp only [pos_mk]; omega⟩
  rw [if_neg c9] at h
  by_cases c10 : l.src.getD (consumeWhitespace l).pos 0 = 59
  · rw [if_pos c10] at h
    injection h with ht hl
    subst ht hl
    exact ⟨h2, by dsimp only [newToken]; decide, rfl, rfl, by simp only [pos_mk]; omega, fun hlt => by simp only [pos_mk]; omega⟩
  rw [if_neg c10] at h
  by_cases c11 : l.src.getD (consumeWhitespace l).pos 0 = 40
  · rw [if_pos c11] at h
    injection h with ht hl
    subst ht hl
    exact ⟨h2, by dsimp only [newToken]; decide, rfl, rfl, by simp only [pos_mk]; omega, fun hlt => by simp only [pos_mk]; omega⟩
  rw [if_neg c11] at h
  by_cases c12 : l.src.getD (consumeWhitespace l).pos 0 = 41
  · rw [if_pos c12] at h
    injection h with ht hl
    subst ht hl
    exact ⟨h2, by dsimp only [newToken]; decide, rfl, rfl, by simp only [pos_mk]; omega, fun hlt => by simp only [pos_mk]; omega⟩
  rw [if_neg c12] at h
  by_cases c13 : l.src.getD (consumeWhitespace l).pos 0 = 123
  · rw [if_pos c13] at h
    injection h with ht hl
    subst ht hl
    exact ⟨h2, by dsimp only [newToken]; decide, rfl, rfl, by simp only [pos_mk]; omega, fun hlt => by simp only [pos_mk]; omega⟩
  rw [if_neg c13] at h
  by_cases c14 : l.src.getD (consumeWhitespace l).pos 0 = 125
  · rw [if_pos c14] at h
    injection h with ht hl
    subst ht hl
    exact ⟨h2, by dsimp only [newToken]; decide, rfl, rfl, by simp only [pos_mk]; omega, fun hlt => by simp only [pos_mk]; omega⟩
  rw [if_neg c14] at h
  by_cases e1 : ((l.src.drop (consumeWhitespace l).pos).takeWhile isNumber) ≠ []
  · rw [if_pos e1] at h
    injection h with ht hl
    subst ht hl
    have hpos : 0 < ((l.src.drop (consumeWhitespace l).pos).takeWhile isNumber).length :=
      List.length_pos.mpr e1
    have hle : ((l.src.drop (consumeWhitespace l).pos).takeWhile isNumber).length ≤
        (l.src.drop (consumeWhitespace l).pos).length :=
      takeWhile_length_le _ _
    rw [List.length_drop] at hle
    exact ⟨h2, by dsimp only [newToken]; decide, rfl, rfl, by simp only [pos_mk]; omega, fun _ => by simp only [pos_mk]; omega⟩
  rw [if_neg e1] at h
  have e1' : ((l.src.drop (consumeWhitespace l).pos).takeWhile isNumber) = [] :=
    not_not.mp e1
  simp only [e1', List.length_nil, Nat.add_zero] at h
  by_cases e2 : ((l.src.drop (consumeWhitespace l).pos).takeWhile isValidIdentChar) ≠ []
  · rw [if_pos e2] at h
    injection h with ht hl
    subst ht hl
    have hpos : 0 <
        ((l.src.drop (consumeWhitespace l).pos).takeWhile isValidIdentChar).length :=
      List.length_pos.mpr e2
    have hle : ((l.src.drop (consumeWhitespace l).pos).takeWhile isValidIdentChar).length ≤
        (l.src.drop (consumeWhitespace l).pos).length :=
      takeWhile_length_le _ _
    rw [List.length_drop] at hle
    exact ⟨h2, token.IdentTokenType_ne_eof _, rfl, rfl, by simp only [pos_mk]; omega, fun _ => by simp only [pos_mk]; omega⟩
  rw [if_neg e2] at h
  have e2' : ((l.src.drop (consumeWhitespace l).pos).takeWhile isValidIdentChar) = [] :=
    not_not.mp e2
  simp only [e2', List.length_nil, Nat.add_zero] at h
  injection h with ht hl
  subst ht hl
  exact ⟨h2, by dsimp only [newToken]; decide, rfl, rfl, by simp only [pos_mk]; omega, fun hlt => by simp only [pos_mk]; omega⟩

end lexer

namespace lexer

/-- NextToken panics when the EOF token has already been returned. -/
theorem nextToken_panic_of_eofReturned (l : Lexer) (h : l.eofReturned = true) :
    NextToken l = NextResult.panic := by
  unfold NextToken
  rw [if_pos h]

/-- NextToken returns the EOF token when, after whitespace skipping, the
position has reached the end of the input. -/
theorem nextToken_eof_of_end (l : Lexer) (h1 : l.eofReturned = false)
    (h2 : (consumeWhitespace l).pos = l.src.length) :
    NextToken l = NextResult.ok (newToken token.EOF [])
      (Lexer.mk l.src true (consumeWhitespace l).pos) := by
  unfold NextToken
  simp only [h1, Bool.false_eq_true, if_false, consumeWhitespace_src]
  rw [if_pos h2]

/-- NextToken reports an invalid-ASCII error when, after whitespace
skipping, the byte at the current position exceeds 127; the error carries
that byte and that position and the state is the whitespace-consumed one. -/
theorem nextToken_invalid_byte (l : Lexer) (h1 : l.eofReturned = false)
    (hlt : (consumeWhitespace l).pos < l.src.length)
    (hbyte : 127 < l.src.getD (consumeWhitespace l).pos 0) :
    NextToken l = NextResult.error
      (InvalidASCIIError.mk (l.src.getD (consumeWhitespace l).pos 0)
        ((consumeWhitespace l).pos))
      (consumeWhitespace l) := by
  unfold NextToken
  simp only [h1, Bool.false_eq_true, if_false, consumeWhitespace_src]
  rw [if_neg (Nat.ne_of_lt hlt)]
  rw [if_pos hbyte]

end lexer

namespace lexer

/-- C1: once NextToken has returned the EOF token — returned, with empty
literal, exactly when the position has reached the end of the input after
whitespace skipping, setting the terminated flag — any further call to
NextToken panics rather than returning an ordinary value, for every input
(empty or not). -/
theorem protocol_violation_after_eof :
    (∀ l : Lexer, l.eofReturned = true → NextToken l = NextResult.panic) ∧
    (∀ (l : Lexer) (t : token.Token) (l₂ : Lexer),
      NextToken l = NextResult.ok t l₂ →
      (t.type = token.EOF ↔ (consumeWhitespace l).pos = l.src.length) ∧
      (t.type = token.EOF →
        t.literal = [] ∧ l₂.eofReturned = true ∧
        NextToken l₂ = NextResult.panic)) := by
  constructor
  · exact fun l h => nextToken_panic_of_eofReturned l h
  · intro l t l₂ h
    obtain ⟨h1', hcase⟩ := nextToken_ok_inv l t l₂ h
    rcases hcase with ⟨hp, ht, hl⟩ | ⟨hp, ht, _, _, _, _⟩
    · subst ht
      subst hl
      refine ⟨⟨fun _ => hp, fun _ => rfl⟩, fun _ => ⟨rfl, rfl, ?_⟩⟩
      exact nextToken_panic_of_eofReturned _ rfl
    · exact ⟨⟨fun he => absurd he ht, fun hpe => absurd hpe hp⟩,
        fun he => absurd he ht⟩

/-- C1 witness: the panic occurs concretely after scanning the empty input
and after scanning a non-empty input to its end. -/
theorem protocol_violation_after_eof_witness :
    NextToken (Lexer.mk [] true 0) = NextResult.panic ∧
    NextToken (Lexer.mk [43] true 1) = NextResult.panic ∧
    ((newToken token.EOF []).type = token.EOF ↔
      (consumeWhitespace (New ([] : List Nat))).pos = ([] : List Nat).length) :=
  ⟨protocol_violation_after_eof.1 _ rfl,
   protocol_violation_after_eof.1 _ rfl,
   (protocol_violation_after_eof.2 (New []) (newToken token.EOF [])
      (Lexer.mk [] true 0) (by decide)).1⟩

/-- C2: when, after whitespace skipping, the byte at the current position
exceeds 127, NextToken returns an invalid-encoding error carrying that byte
value and its zero-based offset; in particular scanning the two-byte input
= followed by byte 255 yields Assign first and then an invalid-encoding
error reporting byte 255 at offset 1. -/
theorem invalid_encoding_error :
    (∀ l : Lexer, l.eofReturned = false →
      (consumeWhitespace l).pos < l.src.length →
      127 < l.src.getD (consumeWhitespace l).pos 0 →
      NextToken l = NextResult.error
        (InvalidASCIIError.mk (l.src.getD (consumeWhitespace l).pos 0)
          (consumeWhitespace l).pos)
        (consumeWhitespace l)) ∧
    (NextToken (New [61, 255]) =
        NextResult.ok (newToken token.Assign [61]) (Lexer.mk [61, 255] false 1) ∧
      NextToken (Lexer.mk [61, 255] false 1) =
        NextResult.error (InvalidASCIIError.mk 255 1) (Lexer.mk [61, 255] false 1)) :=
  ⟨fun l h1 hlt hbyte => nextToken_invalid_byte l h1 hlt hbyte,
   by decide, by decide⟩

/-- C2 witness: a concrete invalid byte (255 at offset 0) obtained by
applying the general statement. -/
theorem invalid_encoding_error_witness :
    NextToken (Lexer.mk [255] false 0) =
      NextResult.error (InvalidASCIIError.mk 255 0) (Lexer.mk [255] false 0) :=
  invalid_encoding_error.1 (Lexer.mk [255] false 0) rfl (by decide) (by decide)

/-- C3: when NextToken reports the invalid-encoding condition, the offending
byte is not skipped: the returned state is exactly the whitespace-consumed
state, the reported offset is its position, the reported byte is the byte at
that position, and calling NextToken again on the returned state reproduces
the identical error with the identical state (position unchanged). -/
theorem invalid_encoding_stable (l : Lexer) (e : InvalidASCIIError) (l₂ : Lexer)
    (h : NextToken l = NextResult.error e l₂) :
    l₂ = consumeWhitespace l ∧
    e.byte = l₂.src.getD l₂.pos 0 ∧ e.position = l₂.pos ∧
    NextToken l₂ = NextResult.error e l₂ := by
  obtain ⟨h1', hlt, hgt, he, hl2⟩ := nextToken_error_inv l e l₂ h
  subst hl2
  subst he
  refine ⟨rfl, rfl, rfl, ?_⟩
  have hw : isWhitespace
      ((consumeWhitespace l).src.getD (consumeWhitespace l).pos 0) = false := by
    rw [consumeWhitespace_src]
    exact not_whitespace_of_gt_127 _ hgt
  have hself : consumeWhitespace (consumeWhitespace l) = consumeWhitespace l :=
    consumeWhitespace_eq_self _ hw
  have hr := nextToken_invalid_byte (consumeWhitespace l)
    (by rw [consumeWhitespace_eofReturned]; exact h1')
    (by rw [hself, consumeWhitespace_src]; exact hlt)
    (by rw [hself, consumeWhitespace_src]; exact hgt)
  rw [hself, consumeWhitespace_src] at hr
  exact hr

/-- C3 witness: a concrete erroring state (byte 200 at offset 0) on which
the stability statement is applied. -/
theorem invalid_encoding_stable_witness :
    NextToken (Lexer.mk [200] false 0) =
      NextResult.error (InvalidASCIIError.mk 200 0) (Lexer.mk [200] false 0) :=
  (invalid_encoding_stable (Lexer.mk [200] false 0) (InvalidASCIIError.mk 200 0)
    (Lexer.mk [200] false 0) (by decide)).2.2.2

end lexer

namespace token

/-- C5: identifier classification is a total pure function: it returns the
dedicated keyword kind exactly on the seven reserved words fn, let, return,
if, else, true, false (given as their byte sequences), and Identifier on
every other byte string; being a Lean function it is deterministic, with no
side effects and no error cases. -/
theorem identTokenType_total (s : List Nat) :
    (s = [102, 110] → IdentTokenType s = Function) ∧
    (s = [108, 101, 116] → IdentTokenType s = Let) ∧
    (s = [114, 101, 116, 117, 114, 110] → IdentTokenType s = Return) ∧
    (s = [105, 102] → IdentTokenType s = If) ∧
    (s = [101, 108, 115, 101] → IdentTokenType s = Else) ∧
    (s = [116, 114, 117, 101] → IdentTokenType s = True) ∧
    (s = [102, 97, 108, 115, 101] → IdentTokenType s = False) ∧
    (s ∉ ([[102, 110], [108, 101, 116], [114, 101, 116, 117, 114, 110],
        [105, 102], [101, 108, 115, 101], [116, 114, 117, 101],
        [102, 97, 108, 115, 101]] : List (List Nat)) →
      IdentTokenType s = Ident) := by
  refine ⟨fun h => by subst h; decide, fun h => by subst h; decide,
    fun h => by subst h; decide, fun h => by subst h; decide,
    fun h => by subst h; decide, fun h => by subst h; decide,
    fun h => by subst h; decide, fun h => ?_⟩
  simp only [List.mem_cons, List.not_mem_nil, or_false, not_or] at h
  obtain ⟨n1, n2, n3, n4, n5, n6, n7⟩ := h
  rw [IdentTokenType_eq_ite]
  rw [if_neg n1, if_neg n3, if_neg n2, if_neg n4, if_neg n5, if_neg n6, if_neg n7]

/-- C5 witness: the classification applied to the keyword fn and to the
non-keyword single letter x. -/
theorem identTokenType_total_witness :
    IdentTokenType [102, 110] = Function ∧ IdentTokenType [120] = Ident :=
  ⟨(identTokenType_total [102, 110]).1 rfl,
   (identTokenType_total [120]).2.2.2.2.2.2.2 (by decide)⟩

end token

namespace lexer

/-- C7: for the empty input and for every input made only of the six ASCII
whitespace characters, scanning yields exactly one token, EOF — the first
call returns EOF (so a whitespace run is never emitted as a token) and the
next call panics. -/
theorem whitespace_only_single_eof (src : List Nat)
    (hws : ∀ b ∈ src, isWhitespace b = true) :
    NextToken (New src) =
      NextResult.ok (newToken token.EOF []) (Lexer.mk src true src.length) ∧
    NextToken (Lexer.mk src true src.length) = NextResult.panic := by
  have hP : (consumeWhitespace (New src)).pos = src.length := by
    show 0 + ((src.drop 0).takeWhile isWhitespace).length = src.length
    rw [List.drop_zero, List.takeWhile_eq_self_iff.mpr hws]
    omega
  constructor
  · have hr := nextToken_eof_of_end (New src) rfl (by rw [hP]; rfl)
    rw [hP] at hr
    exact hr
  · exact nextToken_panic_of_eofReturned _ rfl

/-- C7 witness: the empty input and the input holding all six whitespace
characters each scan to a single EOF token followed by a panic. -/
theorem whitespace_only_single_eof_witness :
    (NextToken (New []) =
        NextResult.ok (newToken token.EOF []) (Lexer.mk [] true 0) ∧
      NextToken (Lexer.mk [] true 0) = NextResult.panic) ∧
    (NextToken (New [9, 10, 11, 12, 13, 32]) =
        NextResult.ok (newToken token.EOF [])
          (Lexer.mk [9, 10, 11, 12, 13, 32] true 6) ∧
      NextToken (Lexer.mk [9, 10, 11, 12, 13, 32] true 6) = NextResult.panic) :=
  ⟨whitespace_only_single_eof [] (by decide),
   whitespace_only_single_eof [9, 10, 11, 12, 13, 32] (by decide)⟩

/-- C8: every call to NextToken preserves the invariant that the position is
at most the input length, never decreases the position, leaves the source
unchanged, and strictly advances the position whenever a non-EOF token is
produced (hence each byte is consumed at most once and a full scan
terminates). -/
theorem position_invariant (l : Lexer) (hinv : l.pos ≤ l.src.length) :
    (∀ (t : token.Token) (l₂ : Lexer), NextToken l = NextResult.ok t l₂ →
      l₂.src = l.src ∧ l.pos ≤ l₂.pos ∧ l₂.pos ≤ l.src.length ∧
      (t.type ≠ token.EOF → l.pos < l₂.pos)) ∧
    (∀ (e : InvalidASCIIError) (l₂ : Lexer),
      NextToken l = NextResult.error e l₂ →
      l₂.src = l.src ∧ l.pos ≤ l₂.pos ∧ l₂.pos ≤ l.src.length) := by
  constructor
  · intro t l₂ h
    obtain ⟨h1', hcase⟩ := nextToken_ok_inv l t l₂ h
    rcases hcase with ⟨hp, ht, hl⟩ | ⟨hp, ht, hsrc, _, hprog, hbound⟩
    · subst ht
      subst hl
      refine ⟨rfl, consumeWhitespace_pos_le l, ?_, fun hne => absurd rfl hne⟩
      exact hp ▸ le_refl _
    · have hle : (consumeWhitespace l).pos ≤ l.src.length :=
        consumeWhitespace_pos_le_length l hinv
      have hlt : (consumeWhitespace l).pos < l.src.length :=
        lt_of_le_of_ne hle hp
      have hcw := consumeWhitespace_pos_le l
      exact ⟨hsrc, by omega, hbound hlt, fun _ => by omega⟩
  · intro e l₂ h
    obtain ⟨h1', hlt, hgt, he, hl2⟩ := nextToken_error_inv l e l₂ h
    subst hl2
    exact ⟨rfl, consumeWhitespace_pos_le l,
      consumeWhitespace_pos_le_length l hinv⟩

/-- C8 witness: the invariant applied to the one-byte input plus, whose
scan produces the Plus token while advancing the position from 0 to 1. -/
theorem position_invariant_witness :
    (Lexer.mk [43] false 1).src = (New [43]).src ∧
    (New [43]).pos ≤ (Lexer.mk [43] false 1).pos ∧
    (Lexer.mk [43] false 1).pos ≤ ([43] : List Nat).length ∧
    (New [43]).pos < (Lexer.mk [43] false 1).pos := by
  have hr := (position_invariant (New [43]) (by decide)).1
    (newToken token.Plus [43]) (Lexer.mk [43] false 1) (by decide)
  exact ⟨hr.1, hr.2.1, hr.2.2.1, hr.2.2.2 (by decide)⟩

end lexer

namespace lexer

/-- C6: for every non-whitespace byte value b at most 127, scanning the two
byte probe consisting of b then the letter a yields Identifier as the first
token exactly when b is an ASCII letter or underscore; otherwise the first
token is not Identifier. -/
theorem probe_first_token_ident_iff (b : Nat) (hb : b ≤ 127)
    (hw : isWhitespace b = false) :
    (firstToken [b, 97]).map token.Token.type = some token.Ident ↔
      ((65 ≤ b ∧ b ≤ 90) ∨ (97 ≤ b ∧ b ≤ 122) ∨ b = 95) := by
  have key : ∀ c : Fin 128, isWhitespace c.val = false →
      ((firstToken [c.val, 97]).map token.Token.type = some token.Ident ↔
        ((65 ≤ c.val ∧ c.val ≤ 90) ∨ (97 ≤ c.val ∧ c.val ≤ 122) ∨ c.val = 95)) := by
    decide
  exact key ⟨b, by omega⟩ hw

/-- C6 witness: the underscore probe scans to an Identifier first token,
and the plus probe does not. -/
theorem probe_first_token_ident_iff_witness :
    (firstToken [95, 97]).map token.Token.type = some token.Ident ∧
    ¬((firstToken [43, 97]).map token.Token.type = some token.Ident) :=
  ⟨(probe_first_token_ident_iff 95 (by decide) (by decide)).mpr (by decide),
   fun hc => by
     have := (probe_first_token_ident_iff 43 (by decide) (by decide)).mp hc
     omega⟩

end lexer

namespace lexer

/-- Forward evaluation: an equals byte followed by another equals byte
produces the two-byte Equal token. -/
theorem nextToken_equal2 (l : Lexer) (h1 : l.eofReturned = false)
    (hlt : (consumeWhitespace l).pos < l.src.length)
    (hchar : l.src.getD (consumeWhitespace l).pos 0 = 61)
    (hnext : (consumeWhitespace l).pos + 1 < l.src.length ∧
      l.src.getD ((consumeWhitespace l).pos + 1) 0 = 61) :
    NextToken l = NextResult.ok (newToken token.Equal [61, 61])
      (Lexer.mk l.src false ((consumeWhitespace l).pos + 2)) := by
  unfold NextToken
  simp only [h1, Bool.false_eq_true, if_false, consumeWhitespace_src,
    consumeWhitespace_eofReturned, gt_iff_lt]
  rw [if_neg (Nat.ne_of_lt hlt)]
  rw [hchar]
  rw [if_neg (by decide : ¬((127:Nat) < 61))]
  rw [if_pos (rfl : (61:Nat) = 61)]
  rw [if_pos
    ((isPrefixOf_pair 61 61 l.src (consumeWhitespace l).pos hlt hchar).mpr hnext)]

/-- Forward evaluation: an equals byte not followed by another equals byte
produces the one-byte Assign token. -/
theorem nextToken_assign1 (l : Lexer) (h1 : l.eofReturned = false)
    (hlt : (consumeWhitespace l).pos < l.src.length)
    (hchar : l.src.getD (consumeWhitespace l).pos 0 = 61)
    (hno : ¬((consumeWhitespace l).pos + 1 < l.src.length ∧
      l.src.getD ((consumeWhitespace l).pos + 1) 0 = 61)) :
    NextToken l = NextResult.ok (newToken token.Assign [61])
      (Lexer.mk l.src false ((consumeWhitespace l).pos + 1)) := by
  unfold NextToken
  simp only [h1, Bool.false_eq_true, if_false, consumeWhitespace_src,
    consumeWhitespace_eofReturned, gt_iff_lt]
  rw [if_neg (Nat.ne_of_lt hlt)]
  rw [hchar]
  rw [if_neg (by decide : ¬((127:Nat) < 61))]
  rw [if_pos (rfl : (61:Nat) = 61)]
  rw [if_neg (fun hc => hno
    ((isPrefixOf_pair 61 61 l.src (consumeWhitespace l).pos hlt hchar).mp hc))]

/-- Forward evaluation: a bang byte followed by an equals byte produces the
two-byte NotEqual token. -/
theorem nextToken_notequal2 (l : Lexer) (h1 : l.eofReturned = false)
    (hlt : (consumeWhitespace l).pos < l.src.length)
    (hchar : l.src.getD (consumeWhitespace l).pos 0 = 33)
    (hnext : (consumeWhitespace l).pos + 1 < l.src.length ∧
      l.src.getD ((consumeWhitespace l).pos + 1) 0 = 61) :
    NextToken l = NextResult.ok (newToken token.NotEqual [33, 61])
      (Lexer.mk l.src false ((consumeWhitespace l).pos + 2)) := by
  unfold NextToken
  simp only [h1, Bool.false_eq_true, if_false, consumeWhitespace_src,
    consumeWhitespace_eofReturned, gt_iff_lt]
  rw [if_neg (Nat.ne_of_lt hlt)]
  rw [hchar]
  rw [if_neg (by decide : ¬((127:Nat) < 33))]
  rw [if_neg (by decide : ¬((33:Nat) = 61))]
  rw [if_neg (by decide : ¬((33:Nat) = 43))]
  rw [if_neg (by decide : ¬((33:Nat) = 45))]
  rw [if_neg (by decide : ¬((33:Nat) = 47))]
  rw [if_neg (by decide : ¬((33:Nat) = 42))]
  rw [if_pos (rfl : (33:Nat) = 33)]
  rw [if_pos
    ((isPrefixOf_pair 33 61 l.src (consumeWhitespace l).pos hlt hchar).mpr hnext)]

/-- Forward evaluation: a bang byte not followed by an equals byte produces
the one-byte Bang token. -/
theorem nextToken_bang1 (l : Lexer) (h1 : l.eofReturned = false)
    (hlt : (consumeWhitespace l).pos < l.src.length)
    (hchar : l.src.getD (consumeWhitespace l).pos 0 = 33)
    (hno : ¬((consumeWhitespace l).pos + 1 < l.src.length ∧
      l.src.getD ((consumeWhitespace l).pos + 1) 0 = 61)) :
    NextToken l = NextResult.ok (newToken token.Bang [33])
      (Lexer.mk l.src false ((consumeWhitespace l).pos + 1)) := by
  unfold NextToken
  simp only [h1, Bool.false_eq_true, if_false, consumeWhitespace_src,
    consumeWhitespace_eofReturned, gt_iff_lt]
  rw [if_neg (Nat.ne_of_lt hlt)]
  rw [hchar]
  rw [if_neg (by decide : ¬((127:Nat) < 33))]
  rw [if_neg (by decide : ¬((33:Nat) = 61))]
  rw [if_neg (by decide : ¬((33:Nat) = 43))]
  rw [if_neg (by decide : ¬((33:Nat) = 45))]
  rw [if_neg (by decide : ¬((33:Nat) = 47))]
  rw [if_neg (by decide : ¬((33:Nat) = 42))]
  rw [if_pos (rfl : (33:Nat) = 33)]
  rw [if_neg (fun hc => hno
    ((isPrefixOf_pair 33 61 l.src (consumeWhitespace l).pos hlt hchar).mp hc))]

/-- C4: on an equals (respectively bang) byte, NextToken performs exactly
one byte of lookahead: when the immediately following byte is an equals it
consumes two bytes and returns Equal (respectively NotEqual) with the
two-character literal, otherwise it consumes one byte and returns Assign
(respectively Bang) with the one-character literal — the two-character
operator is always preferred when the second byte matches. -/
theorem lookahead_one_byte (l : Lexer) (h1 : l.eofReturned = false)
    (hlt : (consumeWhitespace l).pos < l.src.length) :
    (l.src.getD (consumeWhitespace l).pos 0 = 61 →
      ((consumeWhitespace l).pos + 1 < l.src.length ∧
          l.src.getD ((consumeWhitespace l).pos + 1) 0 = 61 →
        NextToken l = NextResult.ok (newToken token.Equal [61, 61])
          (Lexer.mk l.src false ((consumeWhitespace l).pos + 2))) ∧
      (¬((consumeWhitespace l).pos + 1 < l.src.length ∧
          l.src.getD ((consumeWhitespace l).pos + 1) 0 = 61) →
        NextToken l = NextResult.ok (newToken token.Assign [61])
          (Lexer.mk l.src false ((consumeWhitespace l).pos + 1)))) ∧
    (l.src.getD (consumeWhitespace l).pos 0 = 33 →
      ((consumeWhitespace l).pos + 1 < l.src.length ∧
          l.src.getD ((consumeWhitespace l).pos + 1) 0 = 61 →
        NextToken l = NextResult.ok (newToken token.NotEqual [33, 61])
          (Lexer.mk l.src false ((consumeWhitespace l).pos + 2))) ∧
      (¬((consumeWhitespace l).pos + 1 < l.src.length ∧
          l.src.getD ((consumeWhitespace l).pos + 1) 0 = 61) →
        NextToken l = NextResult.ok (newToken token.Bang [33])
          (Lexer.mk l.src false ((consumeWhitespace l).pos + 1)))) :=
  ⟨fun hchar =>
    ⟨fun hnext => nextToken_equal2 l h1 hlt hchar hnext,
     fun hno => nextToken_assign1 l h1 hlt hchar hno⟩,
   fun hchar =>
    ⟨fun hnext => nextToken_notequal2 l h1 hlt hchar hnext,
     fun hno => nextToken_bang1 l h1 hlt hchar hno⟩⟩

/-- C4 witness: the four lookahead outcomes on the concrete inputs equals
equals, equals plus, bang equals, and bang plus. -/
theorem lookahead_one_byte_witness :
    NextToken (New [61, 61]) = NextResult.ok (newToken token.Equal [61, 61])
      (Lexer.mk [61, 61] false 2) ∧
    NextToken (New [61, 43]) = NextResult.ok (newToken token.Assign [61])
      (Lexer.mk [61, 43] false 1) ∧
    NextToken (New [33, 61]) = NextResult.ok (newToken token.NotEqual [33, 61])
      (Lexer.mk [33, 61] false 2) ∧
    NextToken (New [33, 43]) = NextResult.ok (newToken token.Bang [33])
      (Lexer.mk [33, 43] false 1) :=
  ⟨((lookahead_one_byte (New [61, 61]) rfl (by decide)).1 (by decide)).1
      (by decide),
   ((lookahead_one_byte (New [61, 43]) rfl (by decide)).1 (by decide)).2
      (by decide),
   ((lookahead_one_byte (New [33, 61]) rfl (by decide)).2 (by decide)).1
      (by decide),
   ((lookahead_one_byte (New [33, 43]) rfl (by decide)).2 (by decide)).2
      (by decide)⟩

/-- C10: when an equals (respectively bang) byte is the last byte of the
input, the one-byte lookahead finds no second byte, so NextToken returns
Assign (respectively Bang) with the single-character literal and consumes
exactly that one byte, leaving the position exactly at the end of the
input. -/
theorem lookahead_at_end (l : Lexer) (h1 : l.eofReturned = false)
    (hend : (consumeWhitespace l).pos + 1 = l.src.length) :
    (l.src.getD (consumeWhitespace l).pos 0 = 61 →
      NextToken l = NextResult.ok (newToken token.Assign [61])
        (Lexer.mk l.src false l.src.length)) ∧
    (l.src.getD (consumeWhitespace l).pos 0 = 33 →
      NextToken l = NextResult.ok (newToken token.Bang [33])
        (Lexer.mk l.src false l.src.length)) := by
  have hlt : (consumeWhitespace l).pos < l.src.length := by omega
  have hno : ¬((consumeWhitespace l).pos + 1 < l.src.length ∧
      l.src.getD ((consumeWhitespace l).pos + 1) 0 = 61) := by
    rintro ⟨hc, -⟩
    omega
  constructor
  · intro hchar
    have hr := nextToken_assign1 l h1 hlt hchar hno
    rw [hend] at hr
    exact hr
  · intro hchar
    have hr := nextToken_bang1 l h1 hlt hchar hno
    rw [hend] at hr
    exact hr

/-- C10 witness: the single-byte inputs equals and bang each scan to their
one-character token with the position at the end of the input. -/
theorem lookahead_at_end_witness :
    NextToken (New [61]) = NextResult.ok (newToken token.Assign [61])
      (Lexer.mk [61] false 1) ∧
    NextToken (New [33]) = NextResult.ok (newToken token.Bang [33])
      (Lexer.mk [33] false 1) :=
  ⟨(lookahead_at_end (New [61]) rfl (by decide)).1 (by decide),
   (lookahead_at_end (New [33]) rfl (by decide)).2 (by decide)⟩

end lexer

namespace lexer

/-- C9: a NUL byte (value 0) at the current scan position produces an
Illegal token whose literal is that single NUL byte and advances the
position by one; its token type is Illegal, never EOF. -/
theorem nul_byte_illegal (l : Lexer) (h1 : l.eofReturned = false)
    (hlt : (consumeWhitespace l).pos < l.src.length)
    (hchar : l.src.getD (consumeWhitespace l).pos 0 = 0) :
    NextToken l = NextResult.ok (newToken token.Illegal [0])
      (Lexer.mk l.src false ((consumeWhitespace l).pos + 1)) ∧
    (newToken token.Illegal [0]).type ≠ token.EOF := by
  have hg : l.src[(consumeWhitespace l).pos] = 0 := by
    rw [← List.getD_eq_getElem l.src 0 hlt]
    exact hchar
  have hdrop : l.src.drop (consumeWhitespace l).pos =
      0 :: l.src.drop ((consumeWhitespace l).pos + 1) := by
    rw [List.drop_eq_getElem_cons hlt, hg]
  have hint : (l.src.drop (consumeWhitespace l).pos).takeWhile isNumber = [] := by
    rw [hdrop, List.takeWhile_cons]
    simp [isNumber]
  have hident :
      (l.src.drop (consumeWhitespace l).pos).takeWhile isValidIdentChar = [] := by
    rw [hdrop, List.takeWhile_cons]
    simp [isValidIdentChar]
  refine ⟨?_, by decide⟩
  unfold NextToken
  simp only [h1, Bool.false_eq_true, if_false, consumeWhitespace_src,
    consumeWhitespace_eofReturned, gt_iff_lt, readInt, readIdent]
  rw [if_neg (Nat.ne_of_lt hlt)]
  rw [hchar]
  rw [if_neg (by decide : ¬((127:Nat) < 0))]
  rw [if_neg (by decide : ¬((0:Nat) = 61))]
  rw [if_neg (by decide : ¬((0:Nat) = 43))]
  rw [if_neg (by decide : ¬((0:Nat) = 45))]
  rw [if_neg (by decide : ¬((0:Nat) = 47))]
  rw [if_neg (by decide : ¬((0:Nat) = 42))]
  rw [if_neg (by decide : ¬((0:Nat) = 33))]
  rw [if_neg (by decide : ¬((0:Nat) = 60))]
  rw [if_neg (by decide : ¬((0:Nat) = 62))]
  rw [if_neg (by decide : ¬((0:Nat) = 44))]
  rw [if_neg (by decide : ¬((0:Nat) = 59))]
  rw [if_neg (by decide : ¬((0:Nat) = 40))]
  rw [if_neg (by decide : ¬((0:Nat) = 41))]
  rw [if_neg (by decide : ¬((0:Nat) = 123))]
  rw [if_neg (by decide : ¬((0:Nat) = 125))]
  rw [hint]
  simp only [List.length_nil, Nat.add_zero, ne_eq, not_true_eq_false,
    Bool.false_eq_true, if_false]
  rw [hident]
  simp only [List.length_nil, Nat.add_zero, ne_eq, not_true_eq_false,
    Bool.false_eq_true, if_false]

/-- C9 witness: scanning the one-byte NUL input and a NUL byte after a plus
sign both produce the Illegal NUL token. -/
theorem nul_byte_illegal_witness :
    NextToken (New [0]) = NextResult.ok (newToken token.Illegal [0])
      (Lexer.mk [0] false 1) ∧
    NextToken (Lexer.mk [43, 0] false 1) =
      NextResult.ok (newToken token.Illegal [0]) (Lexer.mk [43, 0] false 2) :=
  ⟨(nul_byte_illegal (New [0]) rfl (by decide) (by decide)).1,
   (nul_byte_illegal (Lexer.mk [43, 0] false 1) rfl (by decide) (by decide)).1⟩

end lexer
